import Mathlib

/-!
Verification of the quiz-session command handlers of `src/cmds.js`.

The JavaScript handlers are embedded shallowly:

* text is Lean `String`; JavaScript's `String.prototype.trim` and
  `String.prototype.toLowerCase` are modelled character-wise (`jsTrim`,
  `jsLower`), restricted to the ASCII behaviour that the program exercises;
* the persistent Sequelize store is a list of `Quiz` records; the store
  operations themselves live in `model.js`, which is not part of the
  sources under verification, so they are modelled from the spec and
  marked as such;
* each command handler is a pure function from its inputs (store contents,
  raw command argument, the lines typed by the user, random draws) to the
  resulting store and the ordered trace of observable channel events
  (lines logged, banners, prompts issued, the ready-for-next-command
  signal `rl.prompt()`, and `rl.close()`/`socket.end()`);
* `colorize` only decorates text with ANSI styling, so it is modelled as
  the identity on the text it receives.
-/

set_option linter.unusedVariables false

deriving instance DecidableEq for Except

/-- The whitespace characters recognised by JavaScript's
`String.prototype.trim` (ASCII portion: space, tab, line feed, vertical
tab, form feed, carriage return; the exotic Unicode space separators are
never produced by the program). -/
def isSpace (c : Char) : Bool :=
  c == ' ' || c == '\t' || c == '\n' || c == '\r' || c == '\x0b' || c == '\x0c'

/-- Lowering table of JavaScript `String.prototype.toLowerCase` on ASCII:
each uppercase letter maps to its lowercase counterpart and every other
character is left unchanged. -/
def lowerTable : List (Char × Char) :=
  [('A','a'),('B','b'),('C','c'),('D','d'),('E','e'),('F','f'),('G','g'),
   ('H','h'),('I','i'),('J','j'),('K','k'),('L','l'),('M','m'),('N','n'),
   ('O','o'),('P','p'),('Q','q'),('R','r'),('S','s'),('T','t'),('U','u'),
   ('V','v'),('W','w'),('X','x'),('Y','y'),('Z','z')]

/-- Character-wise action of `toLowerCase`. -/
def jsLowerChar (c : Char) : Char :=
  match lowerTable.find? (fun p => p.1 == c) with
  | some p => p.2
  | none => c

def jsLowerL (l : List Char) : List Char := l.map jsLowerChar

/-- JavaScript `s.toLowerCase()`. -/
def jsLower (s : String) : String := ⟨jsLowerL s.data⟩

def jsTrimL (l : List Char) : List Char :=
  ((l.dropWhile isSpace).reverse.dropWhile isSpace).reverse

/-- JavaScript `s.trim()`: removes leading and trailing whitespace. -/
def jsTrim (s : String) : String := ⟨jsTrimL s.data⟩

/-! ## `parseInt` and `validateId` (src/cmds.js lines 51-64) -/

def isDigitC (c : Char) : Bool := 48 ≤ c.toNat && c.toNat ≤ 57

def digitVal (c : Char) : Nat := c.toNat - 48

def natOfDigits (ds : List Char) : Nat :=
  ds.foldl (fun acc c => 10 * acc + digitVal c) 0

def isHexDigitC (c : Char) : Bool :=
  isDigitC c || (97 ≤ c.toNat && c.toNat ≤ 102) || (65 ≤ c.toNat && c.toNat ≤ 70)

def hexVal (c : Char) : Nat :=
  if isDigitC c then c.toNat - 48
  else if 97 ≤ c.toNat then c.toNat - 87
  else c.toNat - 55

def natOfHexDigits (ds : List Char) : Nat :=
  ds.foldl (fun acc c => 16 * acc + hexVal c) 0

/-- Longest decimal-digit run at the front of `l`; `none` when there is
no digit there (JavaScript's NaN outcome). -/
def parseDecFrom (sign : Int) (l : List Char) : Option Int :=
  let ds := l.takeWhile isDigitC
  if ds.isEmpty then none else some (sign * (natOfDigits ds : Int))

/-- Longest hexadecimal-digit run at the front of `l`, for a string whose
`0x`/`0X` marker has already been consumed. -/
def parseHexFrom (sign : Int) (l : List Char) : Option Int :=
  let ds := l.takeWhile isHexDigitC
  if ds.isEmpty then none else some (sign * (natOfHexDigits ds : Int))

/-- After whitespace and sign: ECMAScript `parseInt` with no radix
argument parses a hex literal when the remainder starts with `0x`/`0X`,
and otherwise the longest decimal-digit run. -/
def parseIntBody (sign : Int) (l : List Char) : Option Int :=
  match l with
  | c0 :: c1 :: t =>
    if c0 = '0' ∧ (c1 = 'x' ∨ c1 = 'X') then parseHexFrom sign t
    else parseDecFrom sign l
  | _ => parseDecFrom sign l

/-- JavaScript `parseInt(s)` (no radix argument): skip leading whitespace,
read an optional sign, then parse per `parseIntBody`.  JavaScript numbers
are IEEE doubles; the handlers only ever use small ids, so the value is
idealized to an exact integer. -/
def parseIntJS (s : String) : Option Int :=
  match s.data.dropWhile isSpace with
  | [] => parseIntBody 1 []
  | c :: t =>
    if c = '-' then parseIntBody (-1) t
    else if c = '+' then parseIntBody 1 t
    else parseIntBody 1 (c :: t)

/-- Function `validateId` (src/cmds.js lines 51-64): rejects a missing argument,
rejects a NaN parse, and otherwise resolves with the parsed integer. -/
def validateId (arg : Option String) : Except String Int :=
  match arg with
  | none => Except.error "Falta el parámetro <id>."
  | some s =>
    match parseIntJS s with
    | none => Except.error "El valor del parámetro <id> no es válido."
    | some n => Except.ok n

/-- The spec's own description of the Validator's parsing ("parse the
longest valid integer prefix; non-numeric input yields not-a-number"),
written for the refinement comparison of claim C7: an optional sign
followed by the longest decimal-digit run, with no hex special case and
no whitespace skipping. -/
def specLeadingInt (s : String) : Option Int :=
  match s.data with
  | [] => parseDecFrom 1 []
  | c :: t =>
    if c = '-' then parseDecFrom (-1) t
    else if c = '+' then parseDecFrom 1 t
    else parseDecFrom 1 (c :: t)

/-! ## The quiz store (external collaborator)

`models.quiz` is implemented by `model.js` and Sequelize, which are not
part of the sources under verification; the operations used by the
handlers are modelled from the spec. -/

structure Quiz where
  id : Int
  question : String
  answer : String
deriving DecidableEq

/-- The persistent collection of quizzes. -/
abbrev Store := List Quiz

/-- Modelled from the spec: `findById` of the Quiz Store (`model.js` is
not under src/) — "find-by-id" returns the record with the given id, or
nothing. -/
def findById (s : Store) (i : Int) : Option Quiz :=
  (s : List Quiz).find? (fun q => q.id == i)

/-- Modelled from the spec: store-assigned unique id for a created
record — one larger than every id already present. -/
def freshId (s : Store) : Int :=
  1 + (s : List Quiz).foldr (fun q m => max q.id m) 0

/-- Modelled from the spec: per-field messages of a Store
`ValidationError` — the Store "may reject writes with validation errors
(e.g., empty text)", one message per offending field. -/
def quizFieldErrors (q a : String) : List String :=
  (if q = "" then ["question must not be empty"] else []) ++
  (if a = "" then ["answer must not be empty"] else [])

/-- Modelled from the spec: `create(question, answer) -> Quiz |
ValidationError` appends a record with a store-assigned unique id, or
rejects the write with per-field messages. -/
def createQuiz (s : Store) (q a : String) : Except (List String) (Store × Quiz) :=
  if quizFieldErrors q a = [] then
    let qz : Quiz := ⟨freshId s, q, a⟩
    Except.ok ((s : List Quiz) ++ [qz], qz)
  else Except.error (quizFieldErrors q a)

/-- Modelled from the spec: `update(quiz) -> Quiz | ValidationError`
(`quiz.save()` in the source) replaces the record with the same id, or
rejects the write with per-field messages. -/
def saveQuiz (s : Store) (qz : Quiz) : Except (List String) Store :=
  if quizFieldErrors qz.question qz.answer = [] then
    Except.ok ((s : List Quiz).map (fun r => if r.id = qz.id then qz else r))
  else Except.error (quizFieldErrors qz.question qz.answer)

/-- Modelled from the spec: `delete(id) -> void`
(`models.quiz.destroy({where: {id}})` in the source) removes every record
whose id matches; a missing id simply removes nothing. -/
def destroyQuiz (s : Store) (i : Int) : Store :=
  (s : List Quiz).filter (fun q => !(q.id == i))

/-! ## Channel events

One constructor per observable call the handlers make on the channel
(`out.js` helpers, `rl`, `socket`).  `errorlog` has two parameter slots
(socket, message); the argument actually passed in each slot is recorded,
because two call sites pass the message where the socket belongs. -/

/-- A JavaScript value passed to `errorlog`: the session socket, a
string, or nothing (`undefined`). -/
inductive JsArg where
  | sock
  | str (s : String)
  | undef
deriving DecidableEq

inductive Event where
  /-- Call `log(socket, text)` (color styling dropped). -/
  | log (text : String)
  /-- Call `biglog(socket, text, color)`. -/
  | biglog (text : String) (color : String)
  /-- Call `errorlog(·, ·)` with the value passed in each of its two slots. -/
  | elog (sockArg : JsArg) (textArg : JsArg)
  /-- Call `rl.question(text, ...)`: one prompt/response round trip issued. -/
  | question (text : String)
  /-- Call `rl.write(text)`: pre-seeding the input buffer (edit flow). -/
  | rlWrite (text : String)
  /-- Call `rl.prompt()`: the ready-for-next-command signal. -/
  | promptCmd
  /-- Call `rl.close()`. -/
  | close
  /-- Call `socket.end()`. -/
  | sockEnd
  /-- Call `errorlog(socket, error.message)` for the TypeError raised when the
  selected quiz is `undefined` in `playOne` (message text is
  runtime-dependent). -/
  | errUndefinedQuiz
deriving DecidableEq

/-- The per-field rendering both `addCmd` and `editCmd` perform on a
`ValidationError`: a header on the socket, then
`error.errors.forEach(({message}) => errorlog(message))` — each message
is passed in the SOCKET slot and the text slot is left `undefined`. -/
def renderValErrsBuggy (msgs : List String) : List Event :=
  Event.elog JsArg.sock (JsArg.str "El quiz es erroneo:") ::
    msgs.map (fun m => Event.elog (JsArg.str m) JsArg.undef)

/-- The not-found message; the interpolated `id` is the handler's raw
string parameter (the parsed integer only shadows it inside the findById
arrow), and interpolating an absent argument would print `undefined`. -/
def noQuizMsg (arg : Option String) : String :=
  "No existe un quiz asociado al id=" ++ arg.getD "undefined" ++ "."

/-! ## Command handlers (src/cmds.js)

Each handler takes the store, the raw argument and the user's input
lines, and returns the resulting store paired with the trace of channel
events in temporal order.  `makeQuestion` (lines 102-108) resolves with
the trimmed input line, so every handler receives `jsTrim line`. -/

/-- Handler `showCmd` (lines 72-87). -/
def showCmd (s : Store) (arg : Option String) : Store × List Event :=
  match validateId arg with
  | Except.error m => (s, [Event.elog JsArg.sock (JsArg.str m), Event.promptCmd])
  | Except.ok i =>
    match findById s i with
    | none => (s, [Event.elog JsArg.sock (JsArg.str (noQuizMsg arg)), Event.promptCmd])
    | some qz =>
      (s, [Event.log (" [" ++ toString qz.id ++ "]:  " ++ qz.question ++ " => " ++ qz.answer),
           Event.promptCmd])

/-- Handler `addCmd` (lines 121-145): prompts for a question and an answer (the
second prompt only after the first response), submits both to the store,
and reports; a `ValidationError` is rendered through the buggy per-field
calls.  The final `.then` always emits `rl.prompt()`. -/
def addCmd (s : Store) (r1 r2 : String) : Store × List Event :=
  let q := jsTrim r1
  let a := jsTrim r2
  let asked := [Event.question " Introduzca una pregunta: ",
                Event.question " Introduzca la respuesta "]
  match createQuiz s q a with
  | Except.ok (s', qz) =>
    (s', asked ++
      [Event.log (" [Se ha añadido]:  " ++ qz.question ++ " => " ++ qz.answer),
       Event.promptCmd])
  | Except.error msgs => (s, asked ++ renderValErrsBuggy msgs ++ [Event.promptCmd])

/-- Handler `deleteCmd` (lines 153-162): validates the id and calls
`models.quiz.destroy({where: {id}})`; there is no existence check and no
NotFound report. -/
def deleteCmd (s : Store) (arg : Option String) : Store × List Event :=
  match validateId arg with
  | Except.error m => (s, [Event.elog JsArg.sock (JsArg.str m), Event.promptCmd])
  | Except.ok i => (destroyQuiz s i, [Event.promptCmd])

/-- Handler `editCmd` (lines 175-211).  After both prompts the source runs
`quiz.question = q; quiz.question = a;` — the question field is assigned
twice and the answer field is never assigned.  The `rl.write` pre-seeding
is scheduled with `setTimeout(..., 0)`, so it lands after the prompt is
issued; it only happens on a TTY. -/
def editCmd (s : Store) (arg : Option String) (r1 r2 : String) (tty : Bool) :
    Store × List Event :=
  match validateId arg with
  | Except.error m => (s, [Event.elog JsArg.sock (JsArg.str m), Event.promptCmd])
  | Except.ok i =>
    match findById s i with
    | none => (s, [Event.elog JsArg.sock (JsArg.str (noQuizMsg arg)), Event.promptCmd])
    | some qz =>
      let q := jsTrim r1
      let a := jsTrim r2
      let asked :=
        [Event.question " Introduzca la pregunta "] ++
          (if tty then [Event.rlWrite qz.question] else []) ++
          [Event.question " Introduzca la respuesta "] ++
          (if tty then [Event.rlWrite qz.answer] else [])
      let qz' : Quiz := { qz with question := a }
      match saveQuiz s qz' with
      | Except.ok s' =>
        (s', asked ++
          [Event.log (" Se ha cambiado el quiz " ++ toString qz'.id ++ " por:  " ++
              qz'.question ++ " => " ++ qz'.answer),
           Event.promptCmd])
      | Except.error msgs => (s, asked ++ renderValErrsBuggy msgs ++ [Event.promptCmd])

/-- Handler `testCmd` (lines 224-255): one prompt round trip; the trimmed,
lower-cased input is compared with the lower-cased (NOT trimmed) stored
answer; `rl.prompt()` is called both inside the answer callback and in
the final `.then`, so the success path signals ready twice. -/
def testCmd (s : Store) (arg : Option String) (inp : String) : Store × List Event :=
  match validateId arg with
  | Except.error m => (s, [Event.elog JsArg.sock (JsArg.str m), Event.promptCmd])
  | Except.ok i =>
    match findById s i with
    | none => (s, [Event.elog JsArg.sock (JsArg.str (noQuizMsg arg)), Event.promptCmd])
    | some qz =>
      let a := jsTrim inp
      if jsLower (jsTrim a) == jsLower qz.answer then
        (s, [Event.question (qz.question ++ "? "),
             Event.log "Su respuesta es correcta.",
             Event.biglog "Correcta" "green",
             Event.promptCmd, Event.promptCmd])
      else
        (s, [Event.question (qz.question ++ "? "),
             Event.log "Su respuesta es incorrecta.",
             Event.biglog "Incorrecta" "red",
             Event.promptCmd, Event.promptCmd])

/-- Handler `quitCmd` (lines 343-347): closes the readline channel and ends the
socket; no ready signal. -/
def quitCmd : List Event := [Event.close, Event.sockEnd]

/-! ## Full-deck play (src/cmds.js lines 263-325)

`playCmd` loads every quiz into `preg_resp`, fills `toBeResolved` with
the indices `0 .. N-1`, and `playOne` repeatedly draws
`Math.floor(Math.random() * toBeResolved.length)` — a uniformly random
value in `[0, length)` — selects round-trips one question, splices the
drawn position out with `toBeResolved.splice(id, 1)` (`List.eraseIdx`),
and recurses while answers match.  Randomness is modelled as an arbitrary
stream of naturals `picks`, reduced modulo the current pool length (every
actual draw is realizable this way and vice versa).  The user's input is
a finite stream `resps` of raw lines; if it runs out the round is left
waiting at its pending prompt. -/

/-- The comparison `playOne` performs on a raw input line:
`makeQuestion` resolves with `respuesta = raw.trim()`, and the code then
tests `respuesta.trim().toLowerCase() === quiz.answer.toLowerCase()`. -/
def codeOk (raw : String) (qz : Quiz) : Bool :=
  jsLower (jsTrim (jsTrim raw)) == jsLower qz.answer

/-- The spec's match predicate: trimmed, case-insensitive comparison of
the response with the stored answer (both sides trimmed). -/
def specOk (raw : String) (qz : Quiz) : Prop :=
  jsLower (jsTrim raw) = jsLower (jsTrim qz.answer)

instance (raw : String) (qz : Quiz) : Decidable (specOk raw qz) := by
  unfold specOk; infer_instance

/-- One answered prompt of a play round: the quiz that was asked and the
raw response line. -/
structure Step where
  quiz : Quiz
  resp : String
deriving DecidableEq

/-- Result of running (the rest of) a play round: the event trace, the
deck indices selected in order, the answered prompts in order, and the
score accumulator when the round stops. -/
structure RoundOut where
  trace : List Event
  sels : List Nat
  steps : List Step
  final : Nat
deriving DecidableEq

def finLine (score : Nat) : String :=
  " Fin del juego. Aciertos: " ++ toString score

def corrLine (score : Nat) : String :=
  " CORRECTO - Lleva " ++ toString score ++ " aciertos."

/-- Events of the `toBeResolved.length === 0` branch of `playOne`. -/
def wonEvents (score : Nat) : List Event :=
  [Event.log " No hay nada más que preguntar",
   Event.log (finLine score),
   Event.biglog (toString score) "magenta",
   Event.promptCmd]

/-- Events of the mismatch branch of `playOne`. -/
def lostEvents (score : Nat) : List Event :=
  [Event.log " INCORRECTO",
   Event.log (finLine score),
   Event.biglog (toString score) "magenta",
   Event.promptCmd]

/-- Loop `playOne` (lines 279-311), driven by the remaining input lines; the
drawn position `id = Math.floor(Math.random() * toBeResolved.length)` is
`picks.headD 0 % pool.length`. -/
def playRound (deck : List Quiz) (score : Nat) (pool : List Nat)
    (picks : List Nat) (resps : List String) : RoundOut :=
  if pool.isEmpty then ⟨wonEvents score, [], [], score⟩
  else
    match pool[picks.headD 0 % pool.length]? with
    | none => ⟨[Event.errUndefinedQuiz, Event.promptCmd], [], [], score⟩
    | some idx =>
      match deck[idx]? with
      | none => ⟨[Event.errUndefinedQuiz, Event.promptCmd], [idx], [], score⟩
      | some qz =>
        match resps with
        | [] => ⟨[Event.question (qz.question ++ "? ")], [idx], [], score⟩
        | raw :: rtail =>
          if codeOk raw qz then
            let rest := playRound deck (score + 1)
              (pool.eraseIdx (picks.headD 0 % pool.length)) picks.tail rtail
            ⟨Event.question (qz.question ++ "? ") :: Event.log (corrLine (score + 1)) ::
                rest.trace,
             idx :: rest.sels, ⟨qz, raw⟩ :: rest.steps, rest.final⟩
          else
            ⟨Event.question (qz.question ++ "? ") :: lostEvents score,
             [idx], [⟨qz, raw⟩], score⟩

/-- The round `playCmd` starts: score 0 and the full index pool. -/
def playRound0 (deck : List Quiz) (picks : List Nat) (resps : List String) : RoundOut :=
  playRound deck 0 (List.range deck.length) picks resps

/-- The `.then` chain of `playCmd` does NOT return `playOne()`'s promise,
so the final `.then(() => rl.prompt())` runs as soon as the callback's
synchronous segment finishes — right after the first question is issued
(or after the whole branch, when no question is issued).  This function
places that early ready signal in temporal order. -/
def insertReadyAfterFirstQuestion : List Event → List Event
  | [] => [Event.promptCmd]
  | Event.question t :: rest => Event.question t :: Event.promptCmd :: rest
  | e :: rest => e :: insertReadyAfterFirstQuestion rest

/-- Handler `playCmd` (lines 263-325): the observable event trace of one `play`
command, given the stored deck, the random draws and the input lines. -/
def playCmd (deck : List Quiz) (picks : List Nat) (resps : List String) : List Event :=
  insertReadyAfterFirstQuestion (playRound0 deck picks resps).trace

def isQuestionEv (e : Event) : Bool :=
  match e with
  | Event.question _ => true
  | _ => false

/-- Predicate `codeOk` on an answered prompt. -/
def codeOkStep (st : Step) : Bool := codeOk st.resp st.quiz

/-- Predicate `specOk` on an answered prompt. -/
def specOkStep (st : Step) : Prop := specOk st.resp st.quiz

instance (st : Step) : Decidable (specOkStep st) := by
  unfold specOkStep; infer_instance

/-! ## Theorems: string model -/

theorem isSpace_jsLowerChar (c : Char) : isSpace (jsLowerChar c) = isSpace c := by
  unfold jsLowerChar
  cases h : lowerTable.find? (fun p => p.1 == c) with
  | none => rfl
  | some p =>
    have hp : p ∈ lowerTable := List.mem_of_find?_eq_some h
    have hc' : p.1 = c := by
      have hc := List.find?_some h
      simpa using hc
    have htab : ∀ q ∈ lowerTable, isSpace q.2 = isSpace q.1 := by decide
    rw [← hc']
    exact htab p hp

theorem isSpace_comp_jsLowerChar : (isSpace ∘ jsLowerChar) = isSpace :=
  funext isSpace_jsLowerChar

theorem jsTrimL_jsLowerL (l : List Char) :
    jsTrimL (jsLowerL l) = jsLowerL (jsTrimL l) := by
  unfold jsTrimL jsLowerL
  rw [List.dropWhile_map, isSpace_comp_jsLowerChar, ← List.map_reverse,
    List.dropWhile_map, isSpace_comp_jsLowerChar, ← List.map_reverse]

/-- Head of a `dropWhile` result never satisfies the dropped predicate. -/
theorem head?_dropWhile {p : Char → Bool} {l : List Char} {a : Char}
    (h : (l.dropWhile p).head? = some a) : p a = false := by
  induction l with
  | nil => simp at h
  | cons x t ih =>
    rw [List.dropWhile_cons] at h
    by_cases hx : p x = true
    · rw [if_pos hx] at h
      exact ih h
    · rw [if_neg hx] at h
      simp at h
      subst h
      simpa using hx

theorem dropWhile_head_false {p : Char → Bool} {l : List Char}
    (h : ∀ a, l.head? = some a → p a = false) : l.dropWhile p = l := by
  cases l with
  | nil => rfl
  | cons x t =>
    rw [List.dropWhile_cons, if_neg]
    simp [h x rfl]

theorem dropWhile_idem (p : Char → Bool) (l : List Char) :
    (l.dropWhile p).dropWhile p = l.dropWhile p :=
  dropWhile_head_false (fun _ h => head?_dropWhile h)

/-- Trimming is idempotent. -/
theorem jsTrimL_idem (l : List Char) : jsTrimL (jsTrimL l) = jsTrimL l := by
  unfold jsTrimL
  set A := l.dropWhile isSpace with hA
  set m := A.reverse.dropWhile isSpace with hm
  -- first: the leading `dropWhile` leaves `m.reverse` unchanged
  have hsuff : m <:+ A.reverse := by
    rw [hm]; exact List.dropWhile_suffix isSpace
  obtain ⟨t, ht⟩ := hsuff
  have hAeq : m.reverse ++ t.reverse = A := by
    have := congrArg List.reverse ht
    simpa using this
  have hdw : m.reverse.dropWhile isSpace = m.reverse := by
    apply dropWhile_head_false
    intro a ha
    cases hrev : m.reverse with
    | nil => rw [hrev] at ha; simp at ha
    | cons b tb =>
      rw [hrev] at ha
      simp at ha
      have hheadA : A.head? = some b := by
        rw [← hAeq, hrev]; rfl
      have hb : isSpace b = false := by
        rw [hA] at hheadA
        exact head?_dropWhile hheadA
      rw [← ha]; exact hb
  rw [hdw]
  rw [List.reverse_reverse, hm, dropWhile_idem]

theorem jsTrim_idem (s : String) : jsTrim (jsTrim s) = jsTrim s := by
  unfold jsTrim
  exact congrArg String.mk (jsTrimL_idem s.data)

theorem jsTrim_jsLower (s : String) :
    jsTrim (jsLower s) = jsLower (jsTrim s) := by
  unfold jsTrim jsLower
  exact congrArg String.mk (jsTrimL_jsLowerL s.data)

/-- If the lower-cased, trimmed input coincides with the lower-cased stored
answer (the comparison the code performs), then it also coincides with the
lower-cased *trimmed* stored answer: the code's hit implies the spec's hit. -/
theorem lower_trim_eq_of_code_eq {inp ans : String}
    (h : jsLower (jsTrim inp) = jsLower ans) :
    jsLower (jsTrim inp) = jsLower (jsTrim ans) := by
  calc jsLower (jsTrim inp)
      = jsLower (jsTrim (jsTrim inp)) := by rw [jsTrim_idem]
    _ = jsTrim (jsLower (jsTrim inp)) := (jsTrim_jsLower _).symm
    _ = jsTrim (jsLower ans) := by rw [h]
    _ = jsLower (jsTrim ans) := jsTrim_jsLower _

/-! ## Theorems: helper lemmas -/



theorem takeWhile_all {p : Char → Bool} {l : List Char}
    (h : ∀ c ∈ l, p c = true) : l.takeWhile p = l :=
  List.takeWhile_eq_self_iff.mpr h

theorem takeWhile_nil_of_head_false {p : Char → Bool} {l : List Char}
    (h : ∀ c ∈ l.head?, p c = false) : l.takeWhile p = [] := by
  cases l with
  | nil => rfl
  | cons c t =>
    rw [List.takeWhile_cons, if_neg]
    have := h c (by simp)
    simp [this]

theorem not_space_of_digit {c : Char} (h : isDigitC c = true) : isSpace c = false := by
  unfold isDigitC at h
  unfold isSpace
  have h48 : 48 ≤ c.toNat := by
    have := (Bool.and_eq_true _ _).mp h
    exact Nat.le_of_ble_eq_true (by simpa using this.1)
  have hs : ∀ d : Char, c == d → c = d := fun d hd => by simpa using hd
  simp only [Bool.or_eq_false_iff]
  refine ⟨⟨⟨⟨⟨?_, ?_⟩, ?_⟩, ?_⟩, ?_⟩, ?_⟩ <;>
    · rw [beq_eq_false_iff_ne]
      intro hc
      rw [hc] at h48
      simp at h48

theorem digit_ne {c d : Char} (h : isDigitC c = true) (hd : 58 ≤ d.toNat) : c ≠ d := by
  unfold isDigitC at h
  have h57 : c.toNat ≤ 57 := by
    have := (Bool.and_eq_true _ _).mp h
    exact Nat.le_of_ble_eq_true (by simpa using this.2)
  intro hcd
  rw [hcd] at h57
  omega

theorem digit_ne_low {c d : Char} (h : isDigitC c = true) (hd : d.toNat < 48) : c ≠ d := by
  unfold isDigitC at h
  have h48 : 48 ≤ c.toNat := by
    have := (Bool.and_eq_true _ _).mp h
    exact Nat.le_of_ble_eq_true (by simpa using this.1)
  intro hcd
  rw [hcd] at h48
  omega

/-- A position read off a nodup list is absent from the list with that
position spliced out. -/
theorem not_mem_eraseIdx_of_nodup :
    ∀ (l : List Nat) (k x : Nat), l.Nodup → l[k]? = some x → x ∉ l.eraseIdx k := by
  intro l
  induction l with
  | nil => intro k x _ h; simp at h
  | cons a t ih =>
    intro k x hnd h
    cases k with
    | zero =>
      simp at h
      subst h
      rw [List.eraseIdx_cons_zero]
      exact (List.nodup_cons.mp hnd).1
    | succ k' =>
      rw [List.eraseIdx_cons_succ]
      have h' : t[k']? = some x := by simpa using h
      have hnd' := List.nodup_cons.mp hnd
      intro hmem
      rcases List.mem_cons.mp hmem with rfl | hmem'
      · exact hnd'.1 (List.getElem?_mem h')
      · exact ih k' x hnd'.2 h' hmem'

theorem mem_of_mem_eraseIdx {l : List Nat} {k x : Nat}
    (h : x ∈ l.eraseIdx k) : x ∈ l :=
  (List.eraseIdx_sublist l k).subset h

/-- The code's comparison hitting implies the spec's trimmed-both-sides
comparison hitting. -/
theorem specOk_of_codeOk {raw : String} {qz : Quiz}
    (h : codeOk raw qz = true) : specOk raw qz := by
  unfold codeOk at h
  rw [jsTrim_idem] at h
  have h' : jsLower (jsTrim raw) = jsLower qz.answer := by simpa using h
  exact lower_trim_eq_of_code_eq h'

theorem codeOk_eq_false_of_not_specOk {raw : String} {qz : Quiz}
    (h : ¬ specOk raw qz) : codeOk raw qz = false := by
  cases hc : codeOk raw qz with
  | false => rfl
  | true => exact absurd (specOk_of_codeOk hc) h

/-- Inserting the early ready signal adds only a `promptCmd` event. -/
theorem mem_insertReadyAfterFirstQuestion {e : Event} :
    ∀ {l : List Event}, e ∈ insertReadyAfterFirstQuestion l →
      e ∈ l ∨ e = Event.promptCmd := by
  intro l
  induction l with
  | nil =>
    intro h
    simp [insertReadyAfterFirstQuestion] at h
    exact Or.inr h
  | cons x rest ih =>
    intro h
    cases x with
    | question t =>
      simp only [insertReadyAfterFirstQuestion] at h
      rcases List.mem_cons.mp h with rfl | h'
      · exact Or.inl (List.mem_cons_self _ _)
      · rcases List.mem_cons.mp h' with rfl | h'' 
        · exact Or.inr rfl
        · exact Or.inl (List.mem_cons_of_mem _ h'')
    | log t =>
      simp only [insertReadyAfterFirstQuestion] at h
      rcases List.mem_cons.mp h with rfl | h'
      · exact Or.inl (List.mem_cons_self _ _)
      · rcases ih h' with h'' | h''
        · exact Or.inl (List.mem_cons_of_mem _ h'')
        · exact Or.inr h''
    | biglog t c =>
      simp only [insertReadyAfterFirstQuestion] at h
      rcases List.mem_cons.mp h with rfl | h'
      · exact Or.inl (List.mem_cons_self _ _)
      · rcases ih h' with h'' | h''
        · exact Or.inl (List.mem_cons_of_mem _ h'')
        · exact Or.inr h''
    | elog a b =>
      simp only [insertReadyAfterFirstQuestion] at h
      rcases List.mem_cons.mp h with rfl | h'
      · exact Or.inl (List.mem_cons_self _ _)
      · rcases ih h' with h'' | h''
        · exact Or.inl (List.mem_cons_of_mem _ h'')
        · exact Or.inr h''
    | rlWrite t =>
      simp only [insertReadyAfterFirstQuestion] at h
      rcases List.mem_cons.mp h with rfl | h'
      · exact Or.inl (List.mem_cons_self _ _)
      · rcases ih h' with h'' | h''
        · exact Or.inl (List.mem_cons_of_mem _ h'')
        · exact Or.inr h''
    | promptCmd =>
      simp only [insertReadyAfterFirstQuestion] at h
      rcases List.mem_cons.mp h with rfl | h'
      · exact Or.inl (List.mem_cons_self _ _)
      · rcases ih h' with h'' | h''
        · exact Or.inl (List.mem_cons_of_mem _ h'')
        · exact Or.inr h''
    | close =>
      simp only [insertReadyAfterFirstQuestion] at h
      rcases List.mem_cons.mp h with rfl | h'
      · exact Or.inl (List.mem_cons_self _ _)
      · rcases ih h' with h'' | h''
        · exact Or.inl (List.mem_cons_of_mem _ h'')
        · exact Or.inr h''
    | sockEnd =>
      simp only [insertReadyAfterFirstQuestion] at h
      rcases List.mem_cons.mp h with rfl | h'
      · exact Or.inl (List.mem_cons_self _ _)
      · rcases ih h' with h'' | h''
        · exact Or.inl (List.mem_cons_of_mem _ h'')
        · exact Or.inr h''
    | errUndefinedQuiz =>
      simp only [insertReadyAfterFirstQuestion] at h
      rcases List.mem_cons.mp h with rfl | h'
      · rcases Or.inl (List.mem_cons_self _ _) with h | h
        · exact Or.inl h
        · exact Or.inr h
      · rcases ih h' with h'' | h''
        · exact Or.inl (List.mem_cons_of_mem _ h'')
        · exact Or.inr h''

/-- Inserting the early ready signal does not change the number of
questions issued. -/
theorem countP_insertReadyAfterFirstQuestion :
    ∀ l : List Event,
      List.countP isQuestionEv (insertReadyAfterFirstQuestion l) =
        List.countP isQuestionEv l := by
  intro l
  induction l with
  | nil => rfl
  | cons x rest ih =>
    cases x <;>
      simp [insertReadyAfterFirstQuestion, List.countP_cons, isQuestionEv, ih]

/-! ## Theorems: one-step unfolding of `playRound` -/

theorem playRound_won (deck : List Quiz) (score : Nat) (pool picks : List Nat)
    (resps : List String) (hp : pool.isEmpty = true) :
    playRound deck score pool picks resps = ⟨wonEvents score, [], [], score⟩ := by
  rw [playRound, if_pos hp]

theorem playRound_selErr (deck : List Quiz) (score : Nat) (pool picks : List Nat)
    (resps : List String) (hp : pool.isEmpty = false)
    (hsel : pool[picks.headD 0 % pool.length]? = none) :
    playRound deck score pool picks resps =
      ⟨[Event.errUndefinedQuiz, Event.promptCmd], [], [], score⟩ := by
  rw [playRound, if_neg (by simp [hp])]
  split
  · rfl
  · rename_i idx heq
    rw [hsel] at heq
    cases heq

theorem playRound_deckErr (deck : List Quiz) (score : Nat) (pool picks : List Nat)
    (resps : List String) (idx : Nat) (hp : pool.isEmpty = false)
    (hsel : pool[picks.headD 0 % pool.length]? = some idx)
    (hq : deck[idx]? = none) :
    playRound deck score pool picks resps =
      ⟨[Event.errUndefinedQuiz, Event.promptCmd], [idx], [], score⟩ := by
  rw [playRound, if_neg (by simp [hp])]
  split
  · rename_i heq
    rw [hsel] at heq
    cases heq
  · rename_i idx' heq
    rw [hsel] at heq
    injection heq with heq'
    subst heq'
    split
    · rfl
    · rename_i qz heq2
      rw [hq] at heq2
      cases heq2

theorem playRound_pending (deck : List Quiz) (score : Nat) (pool picks : List Nat)
    (idx : Nat) (qz : Quiz) (hp : pool.isEmpty = false)
    (hsel : pool[picks.headD 0 % pool.length]? = some idx)
    (hq : deck[idx]? = some qz) :
    playRound deck score pool picks [] =
      ⟨[Event.question (qz.question ++ "? ")], [idx], [], score⟩ := by
  rw [playRound, if_neg (by simp [hp])]
  split
  · rename_i heq
    rw [hsel] at heq
    cases heq
  · rename_i idx' heq
    rw [hsel] at heq
    injection heq with heq'
    subst heq'
    split
    · rename_i heq2
      rw [hq] at heq2
      cases heq2
    · rename_i qz' heq2
      rw [hq] at heq2
      injection heq2 with heq2'
      subst heq2'
      rfl

theorem playRound_correct (deck : List Quiz) (score : Nat) (pool picks : List Nat)
    (raw : String) (rtail : List String) (idx : Nat) (qz : Quiz)
    (hp : pool.isEmpty = false)
    (hsel : pool[picks.headD 0 % pool.length]? = some idx)
    (hq : deck[idx]? = some qz) (hok : codeOk raw qz = true) :
    playRound deck score pool picks (raw :: rtail) =
      ⟨Event.question (qz.question ++ "? ") :: Event.log (corrLine (score + 1)) ::
          (playRound deck (score + 1) (pool.eraseIdx (picks.headD 0 % pool.length))
            picks.tail rtail).trace,
       idx :: (playRound deck (score + 1)
          (pool.eraseIdx (picks.headD 0 % pool.length)) picks.tail rtail).sels,
       Step.mk qz raw :: (playRound deck (score + 1)
          (pool.eraseIdx (picks.headD 0 % pool.length)) picks.tail rtail).steps,
       (playRound deck (score + 1) (pool.eraseIdx (picks.headD 0 % pool.length))
          picks.tail rtail).final⟩ := by
  rw [playRound, if_neg (by simp [hp])]
  split
  · rename_i heq
    rw [hsel] at heq
    cases heq
  · rename_i idx' heq
    rw [hsel] at heq
    injection heq with heq'
    subst heq'
    split
    · rename_i heq2
      rw [hq] at heq2
      cases heq2
    · rename_i qz' heq2
      rw [hq] at heq2
      injection heq2 with heq2'
      subst heq2'
      dsimp only
      rw [if_pos hok]

theorem playRound_wrong (deck : List Quiz) (score : Nat) (pool picks : List Nat)
    (raw : String) (rtail : List String) (idx : Nat) (qz : Quiz)
    (hp : pool.isEmpty = false)
    (hsel : pool[picks.headD 0 % pool.length]? = some idx)
    (hq : deck[idx]? = some qz) (hok : codeOk raw qz = false) :
    playRound deck score pool picks (raw :: rtail) =
      ⟨Event.question (qz.question ++ "? ") :: lostEvents score,
       [idx], [Step.mk qz raw], score⟩ := by
  rw [playRound, if_neg (by simp [hp])]
  split
  · rename_i heq
    rw [hsel] at heq
    cases heq
  · rename_i idx' heq
    rw [hsel] at heq
    injection heq with heq'
    subst heq'
    split
    · rename_i heq2
      rw [hq] at heq2
      cases heq2
    · rename_i qz' heq2
      rw [hq] at heq2
      injection heq2 with heq2'
      subst heq2'
      dsimp only
      rw [if_neg (by simp [hok])]

/-- Pool bookkeeping of a play round: selected indices are distinct, all
come from the pool, and at most `pool.length` prompts are issued. -/
theorem playRound_pool_facts (deck : List Quiz) :
    ∀ (resps : List String) (score : Nat) (pool picks : List Nat), pool.Nodup →
      ((playRound deck score pool picks resps).sels.Nodup ∧
       (∀ x ∈ (playRound deck score pool picks resps).sels, x ∈ pool) ∧
       List.countP isQuestionEv (playRound deck score pool picks resps).trace ≤
         pool.length) := by
  intro resps
  induction resps with
  | nil =>
    intro score pool picks hnd
    by_cases hp : pool.isEmpty = true
    · rw [playRound_won deck score pool picks [] hp]
      simp [wonEvents, isQuestionEv, List.countP_cons]
    · have hp' : pool.isEmpty = false := by simpa using hp
      have hpos : 0 < pool.length :=
        List.length_pos_iff_ne_nil.mpr (fun h => hp (by simp [h]))
      have hk : picks.headD 0 % pool.length < pool.length := Nat.mod_lt _ hpos
      have hsel : pool[picks.headD 0 % pool.length]? =
          some pool[picks.headD 0 % pool.length] := List.getElem?_eq_getElem hk
      rcases hq : deck[pool[picks.headD 0 % pool.length]]? with _ | qz
      · rw [playRound_deckErr deck score pool picks [] _ hp' hsel hq]
        refine ⟨by simp, ?_, ?_⟩
        · intro x hx
          rw [List.mem_singleton] at hx
          subst hx
          exact List.getElem?_mem hsel
        · simp [isQuestionEv, List.countP_cons]
      · rw [playRound_pending deck score pool picks _ qz hp' hsel hq]
        refine ⟨by simp, ?_, ?_⟩
        · intro x hx
          rw [List.mem_singleton] at hx
          subst hx
          exact List.getElem?_mem hsel
        · simpa [isQuestionEv, List.countP_cons] using hpos
  | cons raw rtail ih =>
    intro score pool picks hnd
    by_cases hp : pool.isEmpty = true
    · rw [playRound_won deck score pool picks (raw :: rtail) hp]
      simp [wonEvents, isQuestionEv, List.countP_cons]
    · have hp' : pool.isEmpty = false := by simpa using hp
      have hpos : 0 < pool.length :=
        List.length_pos_iff_ne_nil.mpr (fun h => hp (by simp [h]))
      have hk : picks.headD 0 % pool.length < pool.length := Nat.mod_lt _ hpos
      have hsel : pool[picks.headD 0 % pool.length]? =
          some pool[picks.headD 0 % pool.length] := List.getElem?_eq_getElem hk
      rcases hq : deck[pool[picks.headD 0 % pool.length]]? with _ | qz
      · rw [playRound_deckErr deck score pool picks (raw :: rtail) _ hp' hsel hq]
        refine ⟨by simp, ?_, ?_⟩
        · intro x hx
          rw [List.mem_singleton] at hx
          subst hx
          exact List.getElem?_mem hsel
        · simp [isQuestionEv, List.countP_cons]
      · cases hok : codeOk raw qz with
        | true =>
          have hnd' : (pool.eraseIdx (picks.headD 0 % pool.length)).Nodup :=
            List.Nodup.sublist
              (List.eraseIdx_sublist pool (picks.headD 0 % pool.length)) hnd
          have hrest := ih (score + 1)
            (pool.eraseIdx (picks.headD 0 % pool.length)) picks.tail hnd'
          have hlen : (pool.eraseIdx (picks.headD 0 % pool.length)).length =
              pool.length - 1 := by
            rw [List.length_eraseIdx, if_pos hk]
          rw [playRound_correct deck score pool picks raw rtail _ qz hp' hsel hq hok]
          refine ⟨?_, ?_, ?_⟩
          · refine List.nodup_cons.mpr ⟨?_, hrest.1⟩
            intro hmem
            exact not_mem_eraseIdx_of_nodup pool _ _ hnd hsel (hrest.2.1 _ hmem)
          · intro x hx
            rcases List.mem_cons.mp hx with rfl | hx'
            · exact List.getElem?_mem hsel
            · exact mem_of_mem_eraseIdx (hrest.2.1 x hx')
          · have hcount := hrest.2.2
            rw [hlen] at hcount
            have hone : List.countP isQuestionEv
                (Event.question (qz.question ++ "? ") ::
                  Event.log (corrLine (score + 1)) ::
                  (playRound deck (score + 1)
                    (pool.eraseIdx (picks.headD 0 % pool.length))
                    picks.tail rtail).trace) =
                List.countP isQuestionEv (playRound deck (score + 1)
                  (pool.eraseIdx (picks.headD 0 % pool.length))
                  picks.tail rtail).trace + 1 := by
              rw [List.countP_cons, List.countP_cons]
              rfl
            rw [hone]
            omega
        | false =>
          rw [playRound_wrong deck score pool picks raw rtail _ qz hp' hsel hq hok]
          refine ⟨by simp, ?_, ?_⟩
          · intro x hx
            rw [List.mem_singleton] at hx
            subst hx
            exact List.getElem?_mem hsel
          · simpa [isQuestionEv, lostEvents, List.countP_cons] using hpos

/-- When every pool entry is in bounds for the deck, the defensive
error branch of `playOne` is never taken. -/
theorem playRound_no_err (deck : List Quiz) :
    ∀ (resps : List String) (score : Nat) (pool picks : List Nat),
      (∀ x ∈ pool, x < deck.length) →
      Event.errUndefinedQuiz ∉ (playRound deck score pool picks resps).trace := by
  intro resps
  induction resps with
  | nil =>
    intro score pool picks hb
    by_cases hp : pool.isEmpty = true
    · rw [playRound_won deck score pool picks [] hp]
      simp [wonEvents]
    · have hp' : pool.isEmpty = false := by simpa using hp
      have hpos : 0 < pool.length :=
        List.length_pos_iff_ne_nil.mpr (fun h => hp (by simp [h]))
      have hk : picks.headD 0 % pool.length < pool.length := Nat.mod_lt _ hpos
      have hsel : pool[picks.headD 0 % pool.length]? =
          some pool[picks.headD 0 % pool.length] := List.getElem?_eq_getElem hk
      have hlt : pool[picks.headD 0 % pool.length] < deck.length :=
        hb _ (List.getElem?_mem hsel)
      have hq : deck[pool[picks.headD 0 % pool.length]]? =
          some deck[pool[picks.headD 0 % pool.length]] := List.getElem?_eq_getElem hlt
      rw [playRound_pending deck score pool picks _ _ hp' hsel hq]
      simp
  | cons raw rtail ih =>
    intro score pool picks hb
    by_cases hp : pool.isEmpty = true
    · rw [playRound_won deck score pool picks (raw :: rtail) hp]
      simp [wonEvents]
    · have hp' : pool.isEmpty = false := by simpa using hp
      have hpos : 0 < pool.length :=
        List.length_pos_iff_ne_nil.mpr (fun h => hp (by simp [h]))
      have hk : picks.headD 0 % pool.length < pool.length := Nat.mod_lt _ hpos
      have hsel : pool[picks.headD 0 % pool.length]? =
          some pool[picks.headD 0 % pool.length] := List.getElem?_eq_getElem hk
      have hlt : pool[picks.headD 0 % pool.length] < deck.length :=
        hb _ (List.getElem?_mem hsel)
      have hq : deck[pool[picks.headD 0 % pool.length]]? =
          some deck[pool[picks.headD 0 % pool.length]] := List.getElem?_eq_getElem hlt
      cases hok : codeOk raw deck[pool[picks.headD 0 % pool.length]] with
      | true =>
        rw [playRound_correct deck score pool picks raw rtail _ _ hp' hsel hq hok]
        have hih := ih (score + 1)
          (pool.eraseIdx (picks.headD 0 % pool.length)) picks.tail
          (fun x hx => hb x (mem_of_mem_eraseIdx hx))
        simp only [List.mem_cons]
        intro hmem
        rcases hmem with h1 | h1 | h1
        · cases h1
        · cases h1
        · exact hih h1
      | false =>
        rw [playRound_wrong deck score pool picks raw rtail _ _ hp' hsel hq hok]
        simp [lostEvents]

/-- Score bookkeeping of a play round: the final score is the starting
score plus one per matching answered prompt; every answered prompt except
possibly the last one matched; and when the round's last answered prompt
failed the code's comparison, the round ends right there with the score
frozen and the losing emissions (incorrect line, final-score line,
large-format score, ready signal) closing the trace. -/
theorem playRound_score_aux (deck : List Quiz) :
    ∀ (resps : List String) (score : Nat) (pool picks : List Nat),
      ((playRound deck score pool picks resps).final =
        score + List.countP codeOkStep (playRound deck score pool picks resps).steps) ∧
      (∀ st ∈ (playRound deck score pool picks resps).steps.dropLast,
        codeOkStep st = true) ∧
      (∀ (init : List Step) (lst : Step),
        (playRound deck score pool picks resps).steps = init ++ [lst] →
        codeOkStep lst = false →
        ((playRound deck score pool picks resps).final =
          score + List.countP codeOkStep init ∧
        List.IsSuffix (lostEvents (score + List.countP codeOkStep init))
          (playRound deck score pool picks resps).trace)) := by
  intro resps
  induction resps with
  | nil =>
    intro score pool picks
    by_cases hp : pool.isEmpty = true
    · rw [playRound_won deck score pool picks [] hp]
      refine ⟨by simp, by simp, ?_⟩
      intro init lst h hbad
      simp at h
    · have hp' : pool.isEmpty = false := by simpa using hp
      have hpos : 0 < pool.length :=
        List.length_pos_iff_ne_nil.mpr (fun h => hp (by simp [h]))
      have hk : picks.headD 0 % pool.length < pool.length := Nat.mod_lt _ hpos
      have hsel : pool[picks.headD 0 % pool.length]? =
          some pool[picks.headD 0 % pool.length] := List.getElem?_eq_getElem hk
      rcases hq : deck[pool[picks.headD 0 % pool.length]]? with _ | qz
      · rw [playRound_deckErr deck score pool picks [] _ hp' hsel hq]
        refine ⟨by simp, by simp, ?_⟩
        intro init lst h hbad
        simp at h
      · rw [playRound_pending deck score pool picks _ qz hp' hsel hq]
        refine ⟨by simp, by simp, ?_⟩
        intro init lst h hbad
        simp at h
  | cons raw rtail ih =>
    intro score pool picks
    by_cases hp : pool.isEmpty = true
    · rw [playRound_won deck score pool picks (raw :: rtail) hp]
      refine ⟨by simp, by simp, ?_⟩
      intro init lst h hbad
      simp at h
    · have hp' : pool.isEmpty = false := by simpa using hp
      have hpos : 0 < pool.length :=
        List.length_pos_iff_ne_nil.mpr (fun h => hp (by simp [h]))
      have hk : picks.headD 0 % pool.length < pool.length := Nat.mod_lt _ hpos
      have hsel : pool[picks.headD 0 % pool.length]? =
          some pool[picks.headD 0 % pool.length] := List.getElem?_eq_getElem hk
      rcases hq : deck[pool[picks.headD 0 % pool.length]]? with _ | qz
      · rw [playRound_deckErr deck score pool picks (raw :: rtail) _ hp' hsel hq]
        refine ⟨by simp, by simp, ?_⟩
        intro init lst h hbad
        simp at h
      · cases hok : codeOk raw qz with
        | true =>
          rw [playRound_correct deck score pool picks raw rtail _ qz hp' hsel hq hok]
          have hih := ih (score + 1)
            (pool.eraseIdx (picks.headD 0 % pool.length)) picks.tail
          have hst : codeOkStep (Step.mk qz raw) = true := hok
          refine ⟨?_, ?_, ?_⟩
          · simp only [List.countP_cons, hst]
            have := hih.1
            simp only [if_pos]
            omega
          · intro st hmem
            cases hsteps : (playRound deck (score + 1)
                (pool.eraseIdx (picks.headD 0 % pool.length))
                picks.tail rtail).steps with
            | nil =>
              rw [hsteps] at hmem
              simp at hmem
            | cons b l =>
              rw [hsteps, List.dropLast_cons₂] at hmem
              rcases List.mem_cons.mp hmem with rfl | hmem'
              · exact hst
              · have := hih.2.1 st
                rw [hsteps] at this
                exact this hmem'
          · intro init lst h hbad
            cases init with
            | nil =>
              simp at h
              rcases h with ⟨h1, h2⟩
              rw [← h1] at hbad
              rw [hst] at hbad
              cases hbad
            | cons a init' =>
              simp only [List.cons_append] at h
              injection h with h1 h2
              subst h1
              have hres := hih.2.2 init' lst h2 hbad
              have harith : score + List.countP codeOkStep (Step.mk qz raw :: init') =
                  score + 1 + List.countP codeOkStep init' := by
                rw [List.countP_cons, hst]
                simp
                omega
              rw [harith]
              exact ⟨hres.1, hres.2.trans
                ((List.suffix_cons _ _).trans (List.suffix_cons _ _))⟩
        | false =>
          rw [playRound_wrong deck score pool picks raw rtail _ qz hp' hsel hq hok]
          have hst : codeOkStep (Step.mk qz raw) = false := hok
          refine ⟨?_, by simp, ?_⟩
          · simp [List.countP_cons, hst]
          · intro init lst h hbad
            cases init with
            | nil =>
              simp at h
              subst h
              refine ⟨by simp, ?_⟩
              simp only [List.countP_nil, Nat.add_zero]
              exact List.suffix_cons _ _
            | cons a init' =>
              simp only [List.cons_append] at h
              injection h with h1 h2
              simp at h2

/-! ## Theorems: `parseInt` characterisation -/

theorem parseDecFrom_none (sign : Int) {l : List Char}
    (h : ∀ c ∈ l.head?, isDigitC c = false) : parseDecFrom sign l = none := by
  unfold parseDecFrom
  rw [takeWhile_nil_of_head_false h]
  rfl

theorem parseIntBody_none (sign : Int) {l : List Char}
    (h : ∀ c ∈ l, isDigitC c = false) : parseIntBody sign l = none := by
  cases l with
  | nil => rfl
  | cons c0 t =>
    have hc0 : isDigitC c0 = false := h c0 (List.mem_cons_self _ _)
    cases t with
    | nil =>
      show parseDecFrom sign [c0] = none
      exact parseDecFrom_none sign (by intro c hc; simp at hc; rw [← hc]; exact hc0)
    | cons c1 tt =>
      have hcond : ¬(c0 = '0' ∧ (c1 = 'x' ∨ c1 = 'X')) := by
        rintro ⟨h0, _⟩
        rw [h0] at hc0
        exact absurd hc0 (by decide)
      have hbody : parseIntBody sign (c0 :: c1 :: tt) =
          if c0 = '0' ∧ (c1 = 'x' ∨ c1 = 'X') then parseHexFrom sign tt
          else parseDecFrom sign (c0 :: c1 :: tt) := rfl
      rw [hbody, if_neg hcond]
      exact parseDecFrom_none sign (by intro c hc; simp at hc; rw [← hc]; exact hc0)

theorem parseDecFrom_digits (sign : Int) {ds rest : List Char} (hne : ds ≠ [])
    (hds : ∀ c ∈ ds, isDigitC c = true)
    (hrest : ∀ c ∈ rest.head?, isDigitC c = false) :
    parseDecFrom sign (ds ++ rest) = some (sign * (natOfDigits ds : Int)) := by
  unfold parseDecFrom
  rw [List.takeWhile_append, takeWhile_all hds, if_pos rfl,
    takeWhile_nil_of_head_false hrest, List.append_nil]
  rw [if_neg (by simp [List.isEmpty_iff]; exact hne)]

theorem parseIntBody_digits (sign : Int) {ds rest : List Char} (hne : ds ≠ [])
    (hds : ∀ c ∈ ds, isDigitC c = true)
    (hrest : ∀ c ∈ rest.head?, isDigitC c = false)
    (hhex : ¬(ds = ['0'] ∧ (rest.head? = some 'x' ∨ rest.head? = some 'X'))) :
    parseIntBody sign (ds ++ rest) = some (sign * (natOfDigits ds : Int)) := by
  cases ds with
  | nil => exact absurd rfl hne
  | cons d0 ds' =>
    cases ds' with
    | nil =>
      cases rest with
      | nil =>
        show parseDecFrom sign [d0] = _
        exact parseDecFrom_digits sign hne hds (by intro c hc; simp at hc)
      | cons c1 rt =>
        have hcond : ¬(d0 = '0' ∧ (c1 = 'x' ∨ c1 = 'X')) := by
          rintro ⟨h0, hx⟩
          refine hhex ⟨by rw [h0], ?_⟩
          rcases hx with hx | hx
          · subst hx; exact Or.inl rfl
          · subst hx; exact Or.inr rfl
        have hbody : parseIntBody sign ([d0] ++ (c1 :: rt)) =
            if d0 = '0' ∧ (c1 = 'x' ∨ c1 = 'X') then parseHexFrom sign rt
            else parseDecFrom sign (d0 :: c1 :: rt) := rfl
        rw [hbody, if_neg hcond]
        exact parseDecFrom_digits sign hne hds hrest
    | cons d1 ds'' =>
      have hd1 : isDigitC d1 = true := hds d1 (by simp)
      have hcond : ¬(d0 = '0' ∧ (d1 = 'x' ∨ d1 = 'X')) := by
        rintro ⟨_, hx⟩
        rcases hx with hx | hx
        · exact digit_ne hd1 (by decide) hx
        · exact digit_ne hd1 (by decide) hx
      have hbody : parseIntBody sign ((d0 :: d1 :: ds'') ++ rest) =
          if d0 = '0' ∧ (d1 = 'x' ∨ d1 = 'X') then parseHexFrom sign (ds'' ++ rest)
          else parseDecFrom sign ((d0 :: d1 :: ds'') ++ rest) := rfl
      rw [hbody, if_neg hcond]
      exact parseDecFrom_digits sign hne hds hrest

/-! ## Theorems: store ids -/

theorem id_le_fold :
    ∀ (s : Store) (r : Quiz), r ∈ s →
      r.id ≤ s.foldr (fun qz m => max qz.id m) 0 := by
  intro s
  induction s with
  | nil => intro r hr; cases hr
  | cons b t ih =>
    intro r hr
    rcases List.mem_cons.mp hr with rfl | hr'
    · exact le_max_left _ _
    · exact le_trans (ih r hr') (le_max_right _ _)

theorem id_lt_freshId {s : Store} {r : Quiz} (hr : r ∈ s) : r.id < freshId s := by
  have := id_le_fold s r hr
  unfold freshId
  omega

/-! ## Claim theorems -/

/-- C1: the claim states that after an edit's two prompt round trips the
saved record's `question` equals the first response and its `answer`
equals the second.  Evaluating `editCmd` on the stored quiz
(1, "oldQ", "oldA") with responses "newQ" then "newA" shows the code
instead saves `question := "newA"` (the second response, because
`quiz.question` is assigned twice) and leaves `answer := "oldA"`
unchanged (`quiz.answer` is never assigned). -/
theorem edit_saves_second_response_into_question :
    (editCmd [⟨1, "oldQ", "oldA"⟩] (some "1") "newQ" "newA" false).1 =
      [⟨1, "newA", "oldA"⟩] ∧
    (editCmd [⟨1, "oldQ", "oldA"⟩] (some "1") "newQ" "newA" false).1 ≠
      [⟨1, "newQ", "newA"⟩] := by decide

/-- C2 counterexample: with stored answer " 4 " (surrounding whitespace)
and input "4", the trimmed lower-cased input equals the trimmed
lower-cased stored answer — the claim's criterion for a correct verdict —
yet `testCmd` judges the answer incorrect, because the code never trims
the stored answer. -/
theorem test_judgement_trim_counterexample :
    jsLower (jsTrim "4") = jsLower (jsTrim " 4 ") ∧
    (testCmd [⟨1, "q", " 4 "⟩] (some "1") "4").2 =
      [Event.question "q? ",
       Event.log "Su respuesta es incorrecta.",
       Event.biglog "Incorrecta" "red",
       Event.promptCmd, Event.promptCmd] := by decide

/-- C5: within one `play` handler the ready-for-next-command signal
(`rl.prompt()`, modelled as `Event.promptCmd`) fires immediately after
the first question is issued — before the round's remaining interaction —
because the handler's `.then` chain never returns `playOne()`'s promise.
Evaluated on a one-quiz deck answered correctly: the second event is
already the ready signal, with the whole round still to come.  `quit`,
in contrast, closes the channel and ends the socket without a ready
signal. -/
theorem play_ready_signal_fires_early :
    playCmd [⟨1, "2+2", "4"⟩] [0] ["4"] =
      [Event.question "2+2? ", Event.promptCmd,
       Event.log " CORRECTO - Lleva 1 aciertos.",
       Event.log " No hay nada más que preguntar",
       Event.log " Fin del juego. Aciertos: 1",
       Event.biglog "1" "magenta",
       Event.promptCmd] ∧
    quitCmd = [Event.close, Event.sockEnd] := by decide

/-- C6 counterexample: `delete 99` on a store without id 99 leaves the
store unchanged but reports nothing at all — no NotFound error line is
emitted, only the ready signal — because `deleteCmd` calls `destroy`
without any existence check. -/
theorem delete_missing_id_reports_nothing :
    (deleteCmd [⟨1, "q", "a"⟩] (some "99")).1 = [⟨1, "q", "a"⟩] ∧
    (deleteCmd [⟨1, "q", "a"⟩] (some "99")).2 = [Event.promptCmd] ∧
    Event.elog JsArg.sock (JsArg.str (noQuizMsg (some "99"))) ∉
      (deleteCmd [⟨1, "q", "a"⟩] (some "99")).2 := by decide

/-- C7 counterexample: on the argument "0x" the spec's leading-integer
parse succeeds with 0 (the longest decimal prefix "0"), but the validator
fails with `InvalidParameter`, because JavaScript `parseInt` switches to
hexadecimal after a `0x` marker and then finds no digits. -/
theorem validateId_hex_marker_counterexample :
    specLeadingInt "0x" = some 0 ∧
    validateId (some "0x") =
      Except.error "El valor del parámetro <id> no es válido." := by decide

/-- C8: when the store rejects an add (empty question), the handler
emits the header line on the session's channel but then calls
`errorlog(message)` with the field message in the SOCKET parameter slot
and nothing in the text slot, so no per-field error line is rendered on
the channel; the session is not terminated (the trace ends with the
ready signal and contains no close). -/
theorem add_validation_error_render_bug :
    (addCmd [] "" "x") =
      ([], [Event.question " Introduzca una pregunta: ",
            Event.question " Introduzca la respuesta ",
            Event.elog JsArg.sock (JsArg.str "El quiz es erroneo:"),
            Event.elog (JsArg.str "question must not be empty") JsArg.undef,
            Event.promptCmd]) ∧
    Event.elog JsArg.sock (JsArg.str "question must not be empty") ∉
      (addCmd [] "" "x").2 ∧
    Event.close ∉ (addCmd [] "" "x").2 := by decide

/-- C3: in every play round over a stored deck, the indices selected
from the pending pool are pairwise distinct (an index spliced out is
never drawn again), and the round issues at most `deck.length` question
prompts, over every randomness stream and every input stream. -/
theorem play_selects_each_index_at_most_once (deck : List Quiz)
    (picks : List Nat) (resps : List String) :
    (playRound0 deck picks resps).sels.Nodup ∧
    List.countP isQuestionEv (playCmd deck picks resps) ≤ deck.length := by
  have h := playRound_pool_facts deck resps 0 (List.range deck.length) picks
    (List.nodup_range _)
  refine ⟨h.1, ?_⟩
  unfold playCmd playRound0
  rw [countP_insertReadyAfterFirstQuestion]
  have hlen := h.2.2
  rw [List.length_range] at hlen
  exact hlen

/-- C10: in every play round started by `playCmd` the pending pool only
ever holds distinct in-bounds indices, so the selected quiz is always
defined and the defensive error branch of `playOne` (report an error,
end the round) is never reached: the error event appears in no trace. -/
theorem play_selection_error_branch_unreachable (deck : List Quiz)
    (picks : List Nat) (resps : List String) :
    Event.errUndefinedQuiz ∉ playCmd deck picks resps ∧
    Event.errUndefinedQuiz ∉ (playRound0 deck picks resps).trace := by
  have h := playRound_no_err deck resps 0 (List.range deck.length) picks
    (fun x hx => List.mem_range.mp hx)
  unfold playCmd playRound0
  refine ⟨?_, h⟩
  intro hmem
  rcases mem_insertReadyAfterFirstQuestion hmem with h' | h'
  · exact h h'
  · cases h'

/-- C4: over every play round started by `playCmd` (score accumulator 0),
the final score equals the number of answered prompts whose response
passed the comparison, so the score increases by exactly 1 per hit; every
hit is a hit of the spec's trimmed, case-insensitive comparison with the
stored answer; every answered prompt except possibly the last one was a
hit (so the first miss is the last answered prompt); and when the last
answered prompt misses the spec's comparison the round ends there with
the score frozen at the number of earlier hits, the trace closing with
the incorrect line, the final-score line, the large-format score and the
ready signal. -/
theorem play_score_invariant (deck : List Quiz) (picks : List Nat)
    (resps : List String) :
    ((playRound0 deck picks resps).final =
      List.countP codeOkStep (playRound0 deck picks resps).steps) ∧
    (∀ st ∈ (playRound0 deck picks resps).steps,
      codeOkStep st = true → specOkStep st) ∧
    (∀ st ∈ (playRound0 deck picks resps).steps.dropLast,
      codeOkStep st = true) ∧
    (∀ (init : List Step) (lst : Step),
      (playRound0 deck picks resps).steps = init ++ [lst] → ¬ specOkStep lst →
      ((playRound0 deck picks resps).final = List.countP codeOkStep init ∧
       List.IsSuffix (lostEvents (List.countP codeOkStep init))
         (playRound0 deck picks resps).trace)) := by
  have h := playRound_score_aux deck resps 0 (List.range deck.length) picks
  unfold playRound0
  refine ⟨by simpa using h.1, ?_, h.2.1, ?_⟩
  · intro st hmem hok
    exact specOk_of_codeOk hok
  · intro init lst hsteps hbad
    have hok : codeOkStep lst = false := codeOk_eq_false_of_not_specOk hbad
    have hres := h.2.2 init lst hsteps hok
    constructor
    · simpa using hres.1
    · have := hres.2
      simpa using this

/-- Witness for C4 at a concrete round: deck (1, "2+2", "4"), draw 0,
single response "7" (a miss): the frozen final score is 0 and the trace
ends with the losing emissions. -/
theorem play_score_invariant_witness :
    (playRound0 [⟨1, "2+2", "4"⟩] [0] ["7"]).final =
      List.countP codeOkStep [] ∧
    List.IsSuffix (lostEvents (List.countP codeOkStep []))
      (playRound0 [⟨1, "2+2", "4"⟩] [0] ["7"]).trace :=
  (play_score_invariant [⟨1, "2+2", "4"⟩] [0] ["7"]).2.2.2 []
    (Step.mk ⟨1, "2+2", "4"⟩ "7") (by decide) (by decide)

/-- C2 (amended): for a test on an existing quiz, exactly one question
prompt is issued and the store is untouched; the verdict is "correct"
exactly when the trimmed, lower-cased input equals the lower-cased (not
trimmed) stored answer, and each verdict emits its distinct outcome line
plus the large-format banner, with no retry (the trace is closed by the
ready signals). -/
theorem test_judgement (s : Store) (raw inp : String) (i : Int) (qz : Quiz)
    (hv : validateId (some raw) = Except.ok i)
    (hf : findById s i = some qz) :
    (testCmd s (some raw) inp).1 = s ∧
    List.countP isQuestionEv (testCmd s (some raw) inp).2 = 1 ∧
    (jsLower (jsTrim inp) = jsLower qz.answer →
      (testCmd s (some raw) inp).2 =
        [Event.question (qz.question ++ "? "),
         Event.log "Su respuesta es correcta.",
         Event.biglog "Correcta" "green",
         Event.promptCmd, Event.promptCmd]) ∧
    (jsLower (jsTrim inp) ≠ jsLower qz.answer →
      (testCmd s (some raw) inp).2 =
        [Event.question (qz.question ++ "? "),
         Event.log "Su respuesta es incorrecta.",
         Event.biglog "Incorrecta" "red",
         Event.promptCmd, Event.promptCmd]) := by
  by_cases h : jsLower (jsTrim inp) = jsLower qz.answer
  · have hb : (jsLower (jsTrim (jsTrim inp)) == jsLower qz.answer) = true := by
      rw [jsTrim_idem]
      exact beq_iff_eq.mpr h
    simp only [testCmd, hv, hf, hb, if_true]
    exact ⟨by trivial, by simp [isQuestionEv, List.countP_cons],
      fun _ => by trivial, fun hne => absurd h hne⟩
  · have hb : (jsLower (jsTrim (jsTrim inp)) == jsLower qz.answer) = false := by
      rw [jsTrim_idem]
      exact beq_eq_false_iff_ne.mpr h
    simp only [testCmd, hv, hf, hb, Bool.false_eq_true, if_false]
    exact ⟨by trivial, by simp [isQuestionEv, List.countP_cons],
      fun h' => absurd h' h, fun _ => by trivial⟩

/-- Witness for C2 at a concrete invocation: quiz 1 = ("2+2", "4"),
input "4": one prompt and the correct-verdict trace. -/
theorem test_judgement_witness :
    List.countP isQuestionEv (testCmd [⟨1, "2+2", "4"⟩] (some "1") "4").2 = 1 ∧
    (testCmd [⟨1, "2+2", "4"⟩] (some "1") "4").2 =
      [Event.question "2+2? ",
       Event.log "Su respuesta es correcta.",
       Event.biglog "Correcta" "green",
       Event.promptCmd, Event.promptCmd] :=
  ⟨(test_judgement [⟨1, "2+2", "4"⟩] "1" "4" 1 ⟨1, "2+2", "4"⟩
      (by decide) (by decide)).2.1,
   (test_judgement [⟨1, "2+2", "4"⟩] "1" "4" 1 ⟨1, "2+2", "4"⟩
      (by decide) (by decide)).2.2.1 (by decide)⟩

/-- C6 (amended): for an id that validates but matches no stored record,
show, test and edit each report the NotFound error line and leave the
store unchanged; delete also leaves the store unchanged, but emits no
NotFound report — it completes silently with just the ready signal. -/
theorem notfound_behaviour (s : Store) (raw inp r1 r2 : String) (tty : Bool)
    (i : Int) (hv : validateId (some raw) = Except.ok i)
    (hf : findById s i = none) :
    showCmd s (some raw) =
      (s, [Event.elog JsArg.sock (JsArg.str (noQuizMsg (some raw))),
           Event.promptCmd]) ∧
    testCmd s (some raw) inp =
      (s, [Event.elog JsArg.sock (JsArg.str (noQuizMsg (some raw))),
           Event.promptCmd]) ∧
    editCmd s (some raw) r1 r2 tty =
      (s, [Event.elog JsArg.sock (JsArg.str (noQuizMsg (some raw))),
           Event.promptCmd]) ∧
    deleteCmd s (some raw) = (s, [Event.promptCmd]) := by
  have hnone := List.find?_eq_none.mp hf
  refine ⟨?_, ?_, ?_, ?_⟩
  · simp only [showCmd, hv, hf]
  · simp only [testCmd, hv, hf]
  · simp only [editCmd, hv, hf]
  · simp only [deleteCmd, hv]
    have hdestroy : destroyQuiz s i = s := by
      unfold destroyQuiz
      apply List.filter_eq_self.mpr
      intro q hq
      simp only [Bool.not_eq_true']
      have := hnone q hq
      simpa using this
    rw [hdestroy]

/-- Witness for C6 at a concrete invocation: store `[(1, "q", "a")]`,
argument "99". -/
theorem notfound_behaviour_witness :
    showCmd [⟨1, "q", "a"⟩] (some "99") =
      ([⟨1, "q", "a"⟩],
       [Event.elog JsArg.sock (JsArg.str (noQuizMsg (some "99"))),
        Event.promptCmd]) ∧
    testCmd [⟨1, "q", "a"⟩] (some "99") "x" =
      ([⟨1, "q", "a"⟩],
       [Event.elog JsArg.sock (JsArg.str (noQuizMsg (some "99"))),
        Event.promptCmd]) ∧
    editCmd [⟨1, "q", "a"⟩] (some "99") "y" "z" false =
      ([⟨1, "q", "a"⟩],
       [Event.elog JsArg.sock (JsArg.str (noQuizMsg (some "99"))),
        Event.promptCmd]) ∧
    deleteCmd [⟨1, "q", "a"⟩] (some "99") = ([⟨1, "q", "a"⟩], [Event.promptCmd]) :=
  notfound_behaviour [⟨1, "q", "a"⟩] "99" "x" "y" "z" false 99
    (by decide) (by decide)

/-- C9: add stores exactly the two accepted (already-trimmed, non-empty)
prompt responses under the fresh store-assigned id, and a subsequent show
whose argument validates to that id emits exactly the submitted question
and answer text: the round trip is exact. -/
theorem add_show_roundtrip (s : Store) (q a arg : String)
    (hq : jsTrim q = q) (ha : jsTrim a = a) (hqe : q ≠ "") (hae : a ≠ "")
    (harg : validateId (some arg) = Except.ok (freshId s)) :
    (addCmd s q a).1 = s ++ [⟨freshId s, q, a⟩] ∧
    (showCmd (addCmd s q a).1 (some arg)).2 =
      [Event.log (" [" ++ toString (freshId s) ++ "]:  " ++ q ++ " => " ++ a),
       Event.promptCmd] := by
  have herr : quizFieldErrors q a = [] := by
    unfold quizFieldErrors
    rw [if_neg hqe, if_neg hae]
    rfl
  have hcreate : createQuiz s q a =
      Except.ok (s ++ [⟨freshId s, q, a⟩], ⟨freshId s, q, a⟩) := by
    unfold createQuiz
    rw [if_pos herr]
  have hadd : addCmd s q a =
      (s ++ [⟨freshId s, q, a⟩],
       [Event.question " Introduzca una pregunta: ",
        Event.question " Introduzca la respuesta ",
        Event.log (" [Se ha añadido]:  " ++ q ++ " => " ++ a),
        Event.promptCmd]) := by
    simp only [addCmd, hq, ha, hcreate]
    try rfl
  have hfind : findById (s ++ [⟨freshId s, q, a⟩]) (freshId s) =
      some ⟨freshId s, q, a⟩ := by
    unfold findById
    rw [List.find?_append]
    have h1 : s.find? (fun r => r.id == freshId s) = none := by
      apply List.find?_eq_none.mpr
      intro r hr
      have := id_lt_freshId hr
      simp only [beq_iff_eq]
      omega
    rw [h1]
    simp
  rw [hadd]
  refine ⟨rfl, ?_⟩
  simp only [showCmd, harg, hfind]

/-- Witness for C9 at a concrete invocation: empty store, responses
"Q" and "A", show argument "1" (the fresh id). -/
theorem add_show_roundtrip_witness :
    (addCmd [] "Q" "A").1 = [] ++ [⟨freshId [], "Q", "A"⟩] ∧
    (showCmd (addCmd [] "Q" "A").1 (some "1")).2 =
      [Event.log (" [" ++ toString (freshId []) ++ "]:  " ++ "Q" ++ " => " ++ "A"),
       Event.promptCmd] :=
  add_show_roundtrip [] "Q" "A" "1" (by decide) (by decide) (by decide)
    (by decide) (by decide)

theorem parseIntJS_eq_nil {s : String} (h : s.data.dropWhile isSpace = []) :
    parseIntJS s = none := by
  unfold parseIntJS
  rw [h]
  rfl

theorem parseIntJS_eq_cons {s : String} {c : Char} {t : List Char}
    (h : s.data.dropWhile isSpace = c :: t) :
    parseIntJS s = if c = '-' then parseIntBody (-1) t
      else if c = '+' then parseIntBody 1 t else parseIntBody 1 (c :: t) := by
  unfold parseIntJS
  rw [h]
theorem dropWhile_space_append (l : List Char) :
    ∀ ws : List Char, (∀ c ∈ ws, isSpace c = true) →
      (ws ++ l).dropWhile isSpace = l.dropWhile isSpace := by
  intro ws
  induction ws with
  | nil => intro _; rfl
  | cons w t ih =>
    intro hws
    rw [List.cons_append, List.dropWhile_cons,
      if_pos (hws w (List.mem_cons_self _ _))]
    exact ih (fun c hc => hws c (List.mem_cons_of_mem _ hc))

theorem dropWhile_space_nil {ws : List Char} (hws : ∀ c ∈ ws, isSpace c = true) :
    ws.dropWhile isSpace = [] := by
  have h := dropWhile_space_append [] ws hws
  rwa [List.append_nil] at h

theorem dropWhile_not_space_head (l : List Char) {c : Char}
    (hc : isSpace c = false) : (c :: l).dropWhile isSpace = c :: l := by
  rw [List.dropWhile_cons, if_neg (by simp [hc])]

theorem parseIntBody_none_head (sign : Int) {c : Char} (rest : List Char)
    (hc : isDigitC c = false) : parseIntBody sign (c :: rest) = none := by
  cases rest with
  | nil =>
    show parseDecFrom sign [c] = none
    exact parseDecFrom_none sign (by intro a ha; simp at ha; rw [← ha]; exact hc)
  | cons c1 t =>
    have hcond : ¬(c = '0' ∧ (c1 = 'x' ∨ c1 = 'X')) := by
      rintro ⟨h0, _⟩
      rw [h0] at hc
      exact absurd hc (by decide)
    have hbody : parseIntBody sign (c :: c1 :: t) =
        if c = '0' ∧ (c1 = 'x' ∨ c1 = 'X') then parseHexFrom sign t
        else parseDecFrom sign (c :: c1 :: t) := rfl
    rw [hbody, if_neg hcond]
    exact parseDecFrom_none sign (by intro a ha; simp at ha; rw [← ha]; exact hc)

theorem parseHexFrom_none (sign : Int) {l : List Char}
    (h : ∀ c ∈ l.head?, isHexDigitC c = false) : parseHexFrom sign l = none := by
  unfold parseHexFrom
  rw [takeWhile_nil_of_head_false h]
  rfl

theorem parseHexFrom_digits (sign : Int) {hs rest : List Char} (hne : hs ≠ [])
    (hhs : ∀ c ∈ hs, isHexDigitC c = true)
    (hrest : ∀ c ∈ rest.head?, isHexDigitC c = false) :
    parseHexFrom sign (hs ++ rest) = some (sign * (natOfHexDigits hs : Int)) := by
  unfold parseHexFrom
  rw [List.takeWhile_append, takeWhile_all hhs, if_pos rfl,
    takeWhile_nil_of_head_false hrest, List.append_nil]
  rw [if_neg (by simp [List.isEmpty_iff]; exact hne)]

theorem parseIntBody_hex (sign : Int) (x : Char) (l : List Char)
    (hx : x = 'x' ∨ x = 'X') :
    parseIntBody sign ('0' :: x :: l) = parseHexFrom sign l := by
  have hbody : parseIntBody sign ('0' :: x :: l) =
      if '0' = '0' ∧ (x = 'x' ∨ x = 'X') then parseHexFrom sign l
      else parseDecFrom sign ('0' :: x :: l) := rfl
  rw [hbody, if_pos ⟨rfl, hx⟩]

/-- C7 (amended): the validator fails with `MissingParameter` when the
argument is absent, and otherwise follows JavaScript `parseInt`
semantics: skip leading whitespace, read an optional sign, then parse a
hexadecimal literal when the remainder starts with `0x`/`0X` and
otherwise the longest decimal-digit run; it fails with
`InvalidParameter` when that parse finds no digits, and otherwise
succeeds with the parsed value, sign and magnitude as given and no range
clamping.  The clauses cover every raw argument string, split by the
shape of its content after the leading whitespace run `ws`: nothing at
all; a bare sign; a first meaningful character that is neither digit nor
sign (e.g. "a1"); a sign followed by a non-digit; an optionally signed
decimal digit run followed by a non-digit remainder (hex marker aside),
parsed to exactly that run's value; an optionally signed `0x`/`0X` hex
literal, parsed to the hex digits' value (e.g. "0x1F" to 31); an
optionally signed hex marker followed by no hex digit (e.g. "0x",
"0xg"), rejected; and, restating the spec's "non-numeric input yields
not-a-number", any wholly digit-free argument, rejected. -/
theorem validateId_parse_spec :
    validateId none = Except.error "Falta el parámetro <id>." ∧
    (∀ ws : List Char, (∀ c ∈ ws, isSpace c = true) →
      validateId (some ⟨ws⟩) =
        Except.error "El valor del parámetro <id> no es válido.") ∧
    (∀ ws : List Char, (∀ c ∈ ws, isSpace c = true) →
      validateId (some ⟨ws ++ ['-']⟩) =
        Except.error "El valor del parámetro <id> no es válido." ∧
      validateId (some ⟨ws ++ ['+']⟩) =
        Except.error "El valor del parámetro <id> no es válido.") ∧
    (∀ (ws : List Char) (c : Char) (rest : List Char),
      (∀ a ∈ ws, isSpace a = true) → isSpace c = false → isDigitC c = false →
      c ≠ '-' → c ≠ '+' →
      validateId (some ⟨ws ++ c :: rest⟩) =
        Except.error "El valor del parámetro <id> no es válido.") ∧
    (∀ (ws : List Char) (c : Char) (rest : List Char),
      (∀ a ∈ ws, isSpace a = true) → isDigitC c = false →
      validateId (some ⟨ws ++ '-' :: c :: rest⟩) =
        Except.error "El valor del parámetro <id> no es válido." ∧
      validateId (some ⟨ws ++ '+' :: c :: rest⟩) =
        Except.error "El valor del parámetro <id> no es válido.") ∧
    (∀ ws ds rest : List Char,
      (∀ a ∈ ws, isSpace a = true) → ds ≠ [] →
      (∀ c ∈ ds, isDigitC c = true) →
      (∀ c ∈ rest.head?, isDigitC c = false) →
      ¬(ds = ['0'] ∧ (rest.head? = some 'x' ∨ rest.head? = some 'X')) →
      (validateId (some ⟨ws ++ (ds ++ rest)⟩) =
         Except.ok ((natOfDigits ds : Int)) ∧
       validateId (some ⟨ws ++ '-' :: (ds ++ rest)⟩) =
         Except.ok (-(natOfDigits ds : Int)) ∧
       validateId (some ⟨ws ++ '+' :: (ds ++ rest)⟩) =
         Except.ok ((natOfDigits ds : Int)))) ∧
    (∀ (ws : List Char) (x : Char) (hs rest : List Char),
      (∀ a ∈ ws, isSpace a = true) → (x = 'x' ∨ x = 'X') → hs ≠ [] →
      (∀ c ∈ hs, isHexDigitC c = true) →
      (∀ c ∈ rest.head?, isHexDigitC c = false) →
      (validateId (some ⟨ws ++ '0' :: x :: (hs ++ rest)⟩) =
         Except.ok ((natOfHexDigits hs : Int)) ∧
       validateId (some ⟨ws ++ '-' :: '0' :: x :: (hs ++ rest)⟩) =
         Except.ok (-(natOfHexDigits hs : Int)) ∧
       validateId (some ⟨ws ++ '+' :: '0' :: x :: (hs ++ rest)⟩) =
         Except.ok ((natOfHexDigits hs : Int)))) ∧
    (∀ (ws : List Char) (x : Char) (rest : List Char),
      (∀ a ∈ ws, isSpace a = true) → (x = 'x' ∨ x = 'X') →
      (∀ c ∈ rest.head?, isHexDigitC c = false) →
      (validateId (some ⟨ws ++ '0' :: x :: rest⟩) =
         Except.error "El valor del parámetro <id> no es válido." ∧
       validateId (some ⟨ws ++ '-' :: '0' :: x :: rest⟩) =
         Except.error "El valor del parámetro <id> no es válido." ∧
       validateId (some ⟨ws ++ '+' :: '0' :: x :: rest⟩) =
         Except.error "El valor del parámetro <id> no es válido.")) ∧
    (∀ s : String, (∀ c ∈ s.data, isDigitC c = false) →
      validateId (some s) =
        Except.error "El valor del parámetro <id> no es válido.") := by
  refine ⟨rfl, ?_, ?_, ?_, ?_, ?_, ?_, ?_, ?_⟩
  · -- whitespace only
    intro ws hws
    have hp : parseIntJS ⟨ws⟩ = none :=
      parseIntJS_eq_nil (by show ws.dropWhile isSpace = []
                            exact dropWhile_space_nil hws)
    simp only [validateId, hp]
  · -- bare sign
    intro ws hws
    constructor
    · have hdw : (⟨ws ++ ['-']⟩ : String).data.dropWhile isSpace = '-' :: [] := by
        show (ws ++ ['-']).dropWhile isSpace = ['-']
        rw [dropWhile_space_append _ ws hws]
        exact dropWhile_not_space_head _ (by decide)
      have hp : parseIntJS ⟨ws ++ ['-']⟩ = none := by
        rw [parseIntJS_eq_cons hdw, if_pos rfl]
        rfl
      simp only [validateId, hp]
    · have hdw : (⟨ws ++ ['+']⟩ : String).data.dropWhile isSpace = '+' :: [] := by
        show (ws ++ ['+']).dropWhile isSpace = ['+']
        rw [dropWhile_space_append _ ws hws]
        exact dropWhile_not_space_head _ (by decide)
      have hp : parseIntJS ⟨ws ++ ['+']⟩ = none := by
        rw [parseIntJS_eq_cons hdw, if_neg (by decide), if_pos rfl]
        rfl
      simp only [validateId, hp]
  · -- non-digit, non-sign first meaningful character
    intro ws c rest hws hcs hcd hcm hcp
    have hdw : (⟨ws ++ c :: rest⟩ : String).data.dropWhile isSpace = c :: rest := by
      show (ws ++ c :: rest).dropWhile isSpace = c :: rest
      rw [dropWhile_space_append _ ws hws]
      exact dropWhile_not_space_head _ hcs
    have hp : parseIntJS ⟨ws ++ c :: rest⟩ = none := by
      rw [parseIntJS_eq_cons hdw, if_neg hcm, if_neg hcp]
      exact parseIntBody_none_head 1 rest hcd
    simp only [validateId, hp]
  · -- sign followed by a non-digit
    intro ws c rest hws hcd
    constructor
    · have hdw : (⟨ws ++ '-' :: c :: rest⟩ : String).data.dropWhile isSpace =
          '-' :: c :: rest := by
        show (ws ++ '-' :: c :: rest).dropWhile isSpace = '-' :: c :: rest
        rw [dropWhile_space_append _ ws hws]
        exact dropWhile_not_space_head _ (by decide)
      have hp : parseIntJS ⟨ws ++ '-' :: c :: rest⟩ = none := by
        rw [parseIntJS_eq_cons hdw, if_pos rfl]
        exact parseIntBody_none_head (-1) rest hcd
      simp only [validateId, hp]
    · have hdw : (⟨ws ++ '+' :: c :: rest⟩ : String).data.dropWhile isSpace =
          '+' :: c :: rest := by
        show (ws ++ '+' :: c :: rest).dropWhile isSpace = '+' :: c :: rest
        rw [dropWhile_space_append _ ws hws]
        exact dropWhile_not_space_head _ (by decide)
      have hp : parseIntJS ⟨ws ++ '+' :: c :: rest⟩ = none := by
        rw [parseIntJS_eq_cons hdw, if_neg (by decide), if_pos rfl]
        exact parseIntBody_none_head 1 rest hcd
      simp only [validateId, hp]
  · -- decimal digit run, optionally signed
    intro ws ds rest hws hne hds hrest hhex
    cases ds with
    | nil => exact absurd rfl hne
    | cons d0 ds' =>
      have hd0 : isDigitC d0 = true := hds d0 (List.mem_cons_self _ _)
      have hd0s : isSpace d0 = false := not_space_of_digit hd0
      have hneg : d0 ≠ '-' := digit_ne_low hd0 (by decide)
      have hplus : d0 ≠ '+' := digit_ne_low hd0 (by decide)
      have hbase : ∀ sign : Int,
          parseIntBody sign ((d0 :: ds') ++ rest) =
            some (sign * (natOfDigits (d0 :: ds') : Int)) :=
        fun sign => @parseIntBody_digits sign (d0 :: ds') rest hne hds hrest hhex
      refine ⟨?_, ?_, ?_⟩
      · have hdw : (⟨ws ++ ((d0 :: ds') ++ rest)⟩ : String).data.dropWhile isSpace =
            d0 :: (ds' ++ rest) := by
          show (ws ++ ((d0 :: ds') ++ rest)).dropWhile isSpace = d0 :: (ds' ++ rest)
          rw [dropWhile_space_append _ ws hws, List.cons_append]
          exact dropWhile_not_space_head _ hd0s
        have hp : parseIntJS ⟨ws ++ ((d0 :: ds') ++ rest)⟩ =
            some (1 * (natOfDigits (d0 :: ds') : Int)) := by
          rw [parseIntJS_eq_cons hdw, if_neg hneg, if_neg hplus]
          exact hbase 1
        simp only [validateId, hp, one_mul]
      · have hdw : (⟨ws ++ '-' :: ((d0 :: ds') ++ rest)⟩ : String).data.dropWhile
            isSpace = '-' :: ((d0 :: ds') ++ rest) := by
          show (ws ++ '-' :: ((d0 :: ds') ++ rest)).dropWhile isSpace = _
          rw [dropWhile_space_append _ ws hws]
          exact dropWhile_not_space_head _ (by decide)
        have hp : parseIntJS ⟨ws ++ '-' :: ((d0 :: ds') ++ rest)⟩ =
            some ((-1) * (natOfDigits (d0 :: ds') : Int)) := by
          rw [parseIntJS_eq_cons hdw, if_pos rfl]
          exact hbase (-1)
        simp only [validateId, hp, neg_one_mul]
      · have hdw : (⟨ws ++ '+' :: ((d0 :: ds') ++ rest)⟩ : String).data.dropWhile
            isSpace = '+' :: ((d0 :: ds') ++ rest) := by
          show (ws ++ '+' :: ((d0 :: ds') ++ rest)).dropWhile isSpace = _
          rw [dropWhile_space_append _ ws hws]
          exact dropWhile_not_space_head _ (by decide)
        have hp : parseIntJS ⟨ws ++ '+' :: ((d0 :: ds') ++ rest)⟩ =
            some (1 * (natOfDigits (d0 :: ds') : Int)) := by
          rw [parseIntJS_eq_cons hdw, if_neg (by decide), if_pos rfl]
          exact hbase 1
        simp only [validateId, hp, one_mul]
  · -- hex literal, optionally signed
    intro ws x hs rest hws hx hne hhs hrest
    refine ⟨?_, ?_, ?_⟩
    · have hdw : (⟨ws ++ '0' :: x :: (hs ++ rest)⟩ : String).data.dropWhile
          isSpace = '0' :: (x :: (hs ++ rest)) := by
        show (ws ++ '0' :: x :: (hs ++ rest)).dropWhile isSpace = _
        rw [dropWhile_space_append _ ws hws]
        exact dropWhile_not_space_head _ (by decide)
      have hp : parseIntJS ⟨ws ++ '0' :: x :: (hs ++ rest)⟩ =
          some (1 * (natOfHexDigits hs : Int)) := by
        rw [parseIntJS_eq_cons hdw, if_neg (by decide), if_neg (by decide),
          parseIntBody_hex 1 x (hs ++ rest) hx]
        exact parseHexFrom_digits 1 hne hhs hrest
      simp only [validateId, hp, one_mul]
    · have hdw : (⟨ws ++ '-' :: '0' :: x :: (hs ++ rest)⟩ : String).data.dropWhile
          isSpace = '-' :: ('0' :: x :: (hs ++ rest)) := by
        show (ws ++ '-' :: '0' :: x :: (hs ++ rest)).dropWhile isSpace = _
        rw [dropWhile_space_append _ ws hws]
        exact dropWhile_not_space_head _ (by decide)
      have hp : parseIntJS ⟨ws ++ '-' :: '0' :: x :: (hs ++ rest)⟩ =
          some ((-1) * (natOfHexDigits hs : Int)) := by
        rw [parseIntJS_eq_cons hdw, if_pos rfl,
          parseIntBody_hex (-1) x (hs ++ rest) hx]
        exact parseHexFrom_digits (-1) hne hhs hrest
      simp only [validateId, hp, neg_one_mul]
    · have hdw : (⟨ws ++ '+' :: '0' :: x :: (hs ++ rest)⟩ : String).data.dropWhile
          isSpace = '+' :: ('0' :: x :: (hs ++ rest)) := by
        show (ws ++ '+' :: '0' :: x :: (hs ++ rest)).dropWhile isSpace = _
        rw [dropWhile_space_append _ ws hws]
        exact dropWhile_not_space_head _ (by decide)
      have hp : parseIntJS ⟨ws ++ '+' :: '0' :: x :: (hs ++ rest)⟩ =
          some (1 * (natOfHexDigits hs : Int)) := by
        rw [parseIntJS_eq_cons hdw, if_neg (by decide), if_pos rfl,
          parseIntBody_hex 1 x (hs ++ rest) hx]
        exact parseHexFrom_digits 1 hne hhs hrest
      simp only [validateId, hp, one_mul]
  · -- hex marker with no hex digit, optionally signed
    intro ws x rest hws hx hrest
    refine ⟨?_, ?_, ?_⟩
    · have hdw : (⟨ws ++ '0' :: x :: rest⟩ : String).data.dropWhile isSpace =
          '0' :: (x :: rest) := by
        show (ws ++ '0' :: x :: rest).dropWhile isSpace = _
        rw [dropWhile_space_append _ ws hws]
        exact dropWhile_not_space_head _ (by decide)
      have hp : parseIntJS ⟨ws ++ '0' :: x :: rest⟩ = none := by
        rw [parseIntJS_eq_cons hdw, if_neg (by decide), if_neg (by decide),
          parseIntBody_hex 1 x rest hx]
        exact parseHexFrom_none 1 hrest
      simp only [validateId, hp]
    · have hdw : (⟨ws ++ '-' :: '0' :: x :: rest⟩ : String).data.dropWhile
          isSpace = '-' :: ('0' :: x :: rest) := by
        show (ws ++ '-' :: '0' :: x :: rest).dropWhile isSpace = _
        rw [dropWhile_space_append _ ws hws]
        exact dropWhile_not_space_head _ (by decide)
      have hp : parseIntJS ⟨ws ++ '-' :: '0' :: x :: rest⟩ = none := by
        rw [parseIntJS_eq_cons hdw, if_pos rfl, parseIntBody_hex (-1) x rest hx]
        exact parseHexFrom_none (-1) hrest
      simp only [validateId, hp]
    · have hdw : (⟨ws ++ '+' :: '0' :: x :: rest⟩ : String).data.dropWhile
          isSpace = '+' :: ('0' :: x :: rest) := by
        show (ws ++ '+' :: '0' :: x :: rest).dropWhile isSpace = _
        rw [dropWhile_space_append _ ws hws]
        exact dropWhile_not_space_head _ (by decide)
      have hp : parseIntJS ⟨ws ++ '+' :: '0' :: x :: rest⟩ = none := by
        rw [parseIntJS_eq_cons hdw, if_neg (by decide), if_pos rfl,
          parseIntBody_hex 1 x rest hx]
        exact parseHexFrom_none 1 hrest
      simp only [validateId, hp]
  · -- wholly digit-free argument
    intro s h
    have hsub : ∀ c ∈ s.data.dropWhile isSpace, isDigitC c = false :=
      fun c hc => h c ((List.dropWhile_sublist _).subset hc)
    have hnone : parseIntJS s = none := by
      cases hld : s.data.dropWhile isSpace with
      | nil => exact parseIntJS_eq_nil hld
      | cons c t =>
        have hc : isDigitC c = false :=
          hsub c (by rw [hld]; exact List.mem_cons_self _ _)
        have ht : ∀ a ∈ t, isDigitC a = false :=
          fun a ha => hsub a (by rw [hld]; exact List.mem_cons_of_mem _ ha)
        rw [parseIntJS_eq_cons hld]
        by_cases h1 : c = '-'
        · rw [if_pos h1]
          exact parseIntBody_none (-1) ht
        · rw [if_neg h1]
          by_cases h2 : c = '+'
          · rw [if_pos h2]
            exact parseIntBody_none 1 ht
          · rw [if_neg h2]
            exact parseIntBody_none_head 1 t hc
    simp only [validateId, hnone]

/-- Witness for C7 at concrete arguments exercising every amended
behaviour: whitespace-led " 42" succeeds with 42, "0x1F" succeeds with
the hex value 31, "a1" (digit present but not leading) fails, and "0xg"
(hex marker without hex digits) fails. -/
theorem validateId_parse_spec_witness :
    validateId (some ⟨[' '] ++ (['4', '2'] ++ [])⟩) =
      Except.ok ((natOfDigits ['4', '2'] : Int)) ∧
    validateId (some ⟨[] ++ '0' :: 'x' :: (['1', 'F'] ++ [])⟩) =
      Except.ok ((natOfHexDigits ['1', 'F'] : Int)) ∧
    validateId (some ⟨[] ++ 'a' :: ['1']⟩) =
      Except.error "El valor del parámetro <id> no es válido." ∧
    validateId (some ⟨[] ++ '0' :: 'x' :: ['g']⟩) =
      Except.error "El valor del parámetro <id> no es válido." :=
  ⟨(validateId_parse_spec.2.2.2.2.2.1 [' '] ['4', '2'] [] (by decide) (by decide)
      (by decide) (by decide) (by decide)).1,
   (validateId_parse_spec.2.2.2.2.2.2.1 [] 'x' ['1', 'F'] [] (by decide)
      (by decide) (by decide) (by decide) (by decide)).1,
   validateId_parse_spec.2.2.2.1 [] 'a' ['1'] (by decide) (by decide) (by decide)
     (by decide) (by decide),
   (validateId_parse_spec.2.2.2.2.2.2.2.1 [] 'x' ['g'] (by decide) (by decide)
      (by decide)).1⟩

/-- Witness for C3 at a concrete round: a two-quiz deck answered fully,
distinct selections and at most two prompts. -/
theorem play_selects_each_index_at_most_once_witness :
    (playRound0 [⟨1, "a", "b"⟩, ⟨2, "c", "d"⟩] [0, 0] ["b", "d"]).sels.Nodup ∧
    List.countP isQuestionEv (playCmd [⟨1, "a", "b"⟩, ⟨2, "c", "d"⟩] [0, 0] ["b", "d"]) ≤
      ([⟨1, "a", "b"⟩, ⟨2, "c", "d"⟩] : List Quiz).length :=
  play_selects_each_index_at_most_once [⟨1, "a", "b"⟩, ⟨2, "c", "d"⟩] [0, 0] ["b", "d"]

/-- Witness for C10 at a concrete round: the error event is absent from
the trace of a one-quiz round. -/
theorem play_selection_error_branch_unreachable_witness :
    Event.errUndefinedQuiz ∉ playCmd [⟨1, "2+2", "4"⟩] [0] ["4"] ∧
    Event.errUndefinedQuiz ∉ (playRound0 [⟨1, "2+2", "4"⟩] [0] ["4"]).trace :=
  play_selection_error_branch_unreachable [⟨1, "2+2", "4"⟩] [0] ["4"]
